import Mathlib

/-!
# Verification of the signals SaaS frontend

Shallow embedding of the client-side logic of the dashboard frontend:
the three data hooks of `app/hooks/useDatabase.ts` (portfolios, analyses,
alerts) and the `AnalysisApp` component (position-row editor, ticker
resolution with per-row cancellation, analysis submission).

Modelling conventions:
* JavaScript `number` fields are modelled as `Int`; no property verified
  here depends on fractional or non-finite values.
* A remote call is modelled by passing the response the call returns as an
  explicit argument; a React state setter becomes a pure state transition.
* A thrown `Error(msg)` is modelled by returning the old state unchanged
  together with `some msg` (the message of the thrown error).
* `Partial<PositionRow>` patches (object spread `{ ...r, ...patch }`)
  become a record of `Option` fields applied field by field.
-/

namespace SignalsFrontend

/-- JavaScript truthiness of a `string | null` value: `null` and the empty
string are falsy, every other string is truthy. -/
def truthyStr : Option String → Bool
  | none => false
  | some s => s != ""

/-- `Position` from `useDatabase.ts`. -/
structure Position where
  ticker : String
  amount : Int
  deriving Repr, DecidableEq

/-- `Portfolio` from `useDatabase.ts`. -/
structure Portfolio where
  id : String
  user_id : String
  name : String
  description : Option String
  positions : List Position
  is_default : Bool
  is_tracked : Bool
  created_at : String
  updated_at : String
  deriving Repr, DecidableEq

/-- `result_summary` of an analysis (numeric JSON fields as `Int`). -/
structure ResultSummary where
  regime : Option String
  signal : Option String
  trend_score : Option Int
  z_score : Option Int
  rsi : Option Int
  cumulative_return : Option Int
  deriving Repr, DecidableEq

/-- `AnalysisSummary` from `useDatabase.ts`. -/
structure AnalysisSummary where
  id : String
  user_id : String
  portfolio_id : Option String
  portfolio_name : String
  positions : List Position
  analysis_period_days : Int
  result_summary : ResultSummary
  duration_ms : Option Int
  created_at : String
  has_html_report : Bool
  has_ai_memo : Bool
  deriving Repr, DecidableEq

/-- `alert_type` enum of `Alert`. -/
inductive AlertType
  | buy | sell | regime_change | drawdown | zscore_extreme
  deriving Repr, DecidableEq

/-- `severity` enum of `Alert`. -/
inductive Severity
  | info | warning | critical
  deriving Repr, DecidableEq

/-- `Alert` from `useDatabase.ts`. -/
structure Alert where
  id : String
  user_id : String
  portfolio_id : String
  portfolio_name : Option String
  alert_type : AlertType
  severity : Severity
  signal_date : String
  message : String
  is_read : Bool
  created_at : String
  deriving Repr, DecidableEq

/-- The outcome of a remote call as observed by a hook mutator: the `ok`
flag of the `Response`, and the `detail` field of its JSON error body when
the body parses and carries one (`err.detail` after
`res.json().catch(() => ({}))`). -/
structure ApiResp where
  ok : Bool
  detail : Option String
  deriving Repr, DecidableEq

/-- Local state of the `usePortfolios` hook. -/
structure PortfoliosState where
  portfolios : List Portfolio
  deriving Repr, DecidableEq

/-- Local state of the `useAnalyses` hook. -/
structure AnalysesState where
  analyses : List AnalysisSummary
  total : Int
  deriving Repr, DecidableEq

/-- Local state of the `useAlerts` hook. -/
structure AlertsState where
  alerts : List Alert
  unreadCount : Int
  deriving Repr, DecidableEq

/-- `savePortfolio` of `usePortfolios`: on a non-ok response throw
`err.detail || 'Failed to save portfolio'` and leave state unchanged;
on success prepend the created portfolio. -/
def savePortfolio (resp : ApiResp) (created : Portfolio)
    (s : PortfoliosState) : PortfoliosState × Option String :=
  if resp.ok then
    (⟨created :: s.portfolios⟩, none)
  else
    (s, some (resp.detail.getD "Failed to save portfolio"))

/-- `deletePortfolio` of `usePortfolios`: on a non-ok response throw
`err.detail || 'Failed to delete portfolio'` and leave state unchanged;
on success filter out the portfolio with the given id. -/
def deletePortfolio (resp : ApiResp) (id : String)
    (s : PortfoliosState) : PortfoliosState × Option String :=
  if resp.ok then
    (⟨s.portfolios.filter (fun p => p.id != id)⟩, none)
  else
    (s, some (resp.detail.getD "Failed to delete portfolio"))

/-- `saveAnalysis` of `useAnalyses`: on a non-ok response throw
`err.detail || 'Failed to save analysis'` and leave state unchanged;
on success prepend the created analysis and increment `total`. -/
def saveAnalysis (resp : ApiResp) (created : AnalysisSummary)
    (s : AnalysesState) : AnalysesState × Option String :=
  if resp.ok then
    (⟨created :: s.analyses, s.total + 1⟩, none)
  else
    (s, some (resp.detail.getD "Failed to save analysis"))

/-- `deleteAnalysis` of `useAnalyses`: on a non-ok response throw
`err.detail || 'Failed to delete analysis'` and leave state unchanged;
on success filter out the analysis with the given id and decrement
`total` (unconditionally, with no clamp). -/
def deleteAnalysis (resp : ApiResp) (id : String)
    (s : AnalysesState) : AnalysesState × Option String :=
  if resp.ok then
    (⟨s.analyses.filter (fun a => a.id != id), s.total - 1⟩, none)
  else
    (s, some (resp.detail.getD "Failed to delete analysis"))

/-- `markAsRead` of `useAlerts`: on a non-ok response throw the fixed
message `'Failed to mark alert as read'` (the server detail is not
consulted) and leave state unchanged; on success set `is_read` on the
alert with the given id and set `unreadCount` to
`Math.max(0, prev - 1)`. -/
def markAsRead (resp : ApiResp) (id : String)
    (s : AlertsState) : AlertsState × Option String :=
  if resp.ok then
    (⟨s.alerts.map (fun a => if a.id == id then { a with is_read := true } else a),
      max 0 (s.unreadCount - 1)⟩, none)
  else
    (s, some "Failed to mark alert as read")

/-- `markAllAsRead` of `useAlerts`: on a non-ok response throw the fixed
message `'Failed to mark all alerts as read'` and leave state unchanged;
on success set `is_read` on every alert and reset `unreadCount` to 0. -/
def markAllAsRead (resp : ApiResp)
    (s : AlertsState) : AlertsState × Option String :=
  if resp.ok then
    (⟨s.alerts.map (fun a => { a with is_read := true }), 0⟩, none)
  else
    (s, some "Failed to mark all alerts as read")

/-- `deleteAlert` of `useAlerts`: on a non-ok response throw the fixed
message `'Failed to delete alert'` and leave state unchanged; on success
compute `wasUnread` from the current alert list, filter out the alert
with the given id, and decrement `unreadCount` (clamped at 0) only when
the deleted alert was unread. -/
def deleteAlert (resp : ApiResp) (id : String)
    (s : AlertsState) : AlertsState × Option String :=
  if resp.ok then
    let wasUnread := ((s.alerts.find? (fun a => a.id == id)).map Alert.is_read) == some false
    (⟨s.alerts.filter (fun a => a.id != id),
      if wasUnread then max 0 (s.unreadCount - 1) else s.unreadCount⟩, none)
  else
    (s, some "Failed to delete alert")

/-- `Candidate` from `AnalysisApp` (ticker-search candidate; the numeric
`confidence` as `Int`). -/
structure Candidate where
  name : String
  provider : String
  provider_symbol : String
  ctype : String
  exchange : Option String
  currency : Option String
  confidence : Option Int
  deriving Repr, DecidableEq

/-- `PositionRow` from `AnalysisApp`: one row of the portfolio editor.
Row ids produced by `uid()` are modelled as naturals drawn from a fresh
counter. -/
structure PositionRow where
  id : Nat
  query : String
  resolvedSymbol : Option String
  amount : Int
  candidates : List Candidate
  loading : Bool
  error : Option String
  deriving Repr, DecidableEq

/-- A `Partial<PositionRow>` patch as used by `updateRow` (`id` is never
patched by any call site). `none` means the field is absent from the
patch object. -/
structure RowPatch where
  query : Option String := none
  resolvedSymbol : Option (Option String) := none
  amount : Option Int := none
  candidates : Option (List Candidate) := none
  loading : Option Bool := none
  error : Option (Option String) := none
  deriving Repr, DecidableEq

/-- Object spread `{ ...r, ...patch }`: present patch fields overwrite. -/
def applyPatch (r : PositionRow) (p : RowPatch) : PositionRow :=
  { r with
    query := p.query.getD r.query
    resolvedSymbol := p.resolvedSymbol.getD r.resolvedSymbol
    amount := p.amount.getD r.amount
    candidates := p.candidates.getD r.candidates
    loading := p.loading.getD r.loading
    error := p.error.getD r.error }

/-- Editor state of `AnalysisApp`: the `rows` array plus the fresh-id
counter standing for `uid()`. -/
structure EditorState where
  rows : List PositionRow
  nextId : Nat
  deriving Repr, DecidableEq

/-- A fresh row as created by `addRow` / the initial state, with the
given id and amount. -/
def freshRow (id : Nat) (amount : Int) : PositionRow :=
  { id := id, query := "", resolvedSymbol := none, amount := amount,
    candidates := [], loading := false, error := none }

/-- The initial `rows` state: two rows with amounts +1,000,000 and
−1,000,000. -/
def initEditor : EditorState :=
  { rows := [freshRow 0 1000000, freshRow 1 (-1000000)], nextId := 2 }

/-- `updateRow(id, patch)`: map the patch over the row with that id. -/
def updateRow (s : EditorState) (id : Nat) (p : RowPatch) : EditorState :=
  { s with rows := s.rows.map (fun r => if r.id == id then applyPatch r p else r) }

/-- `addRow()`: append a fresh zero-amount row with a new uid. -/
def addRow (s : EditorState) : EditorState :=
  { rows := s.rows ++ [freshRow s.nextId 0], nextId := s.nextId + 1 }

/-- `removeRow(id)`: no-op when the editor holds two or fewer rows,
otherwise filter out the row with the given id. -/
def removeRow (s : EditorState) (id : Nat) : EditorState :=
  if s.rows.length ≤ 2 then s
  else { s with rows := s.rows.filter (fun r => r.id != id) }

/-- One editor action: the row-management operations of `AnalysisApp`. -/
inductive EditorStep
  | add
  | remove (id : Nat)
  | update (id : Nat) (p : RowPatch)

/-- Apply one editor action. -/
def editorStep (s : EditorState) : EditorStep → EditorState
  | .add => addRow s
  | .remove id => removeRow s id
  | .update id p => updateRow s id p

/-- Run a list of editor actions from a state. -/
def editorRun (s : EditorState) (steps : List EditorStep) : EditorState :=
  steps.foldl editorStep s

/-- Well-formedness of the editor state: at least two rows, distinct row
ids, and all ids below the fresh counter. -/
def EditorInv (s : EditorState) : Prop :=
  2 ≤ s.rows.length ∧ (s.rows.map PositionRow.id).Nodup ∧
    ∀ r ∈ s.rows, r.id < s.nextId

/-- `gross`: `rows.reduce((s, r) => s + Math.abs(Number(r.amount || 0)), 0)`. -/
def gross (rows : List PositionRow) : Int :=
  rows.foldl (fun s r => s + |r.amount|) 0

/-- `net`: `rows.reduce((s, r) => s + Number(r.amount || 0), 0)`. -/
def net (rows : List PositionRow) : Int :=
  rows.foldl (fun s r => s + r.amount) 0

/-- `longExposure`: sum of the positive amounts. -/
def longExposure (rows : List PositionRow) : Int :=
  rows.foldl (fun s r => s + (if r.amount > 0 then r.amount else 0)) 0

/-- `shortExposure`: sum of the absolute values of the negative amounts. -/
def shortExposure (rows : List PositionRow) : Int :=
  rows.foldl (fun s r => s + (if r.amount < 0 then |r.amount| else 0)) 0

/-!
## Ticker resolution (`resolveRow`)

`resolveRow` is async: it aborts the previous controller for the row,
registers a new one, issues a fetch, and applies the response unless the
fetch was aborted (an `AbortError` is swallowed by the catch). The
embedding splits it at the await point: `resolveRowStart` is the
synchronous prefix (trim check, abort, register, loading patch), and
`resolveRowComplete` is the continuation run when the response for a
given request arrives. Controllers are identified by generation numbers
drawn from a fresh counter; `aborted` records every generation whose
controller's `abort()` was called, and a completion for an aborted
generation leaves the row untouched (the `AbortError` branch). -/

/-- Result of the `/resolve` fetch as seen by `resolveRow`'s handler: a
parsed JSON body (`auto_selected` flag and candidate list), or any
non-abort failure with its message (a non-ok status becomes
`"Search failed"`, a transport error carries its own message). -/
inductive FetchResult
  | success (auto_selected : Bool) (candidates : List Candidate)
  | failure (msg : String)
  deriving Repr, DecidableEq

/-- JavaScript `String.prototype.trim()`: strip leading and trailing
whitespace (modelled structurally over the character list so that proofs
can evaluate it). -/
def jsTrim (s : String) : String :=
  ⟨((s.data.dropWhile Char.isWhitespace).reverse.dropWhile
      Char.isWhitespace).reverse⟩

/-- Per-row network state: the row itself, `abortRefs.current[id]`
(`lastCtrl`), the set of aborted generations, the generations issued but
not yet completed, and the fresh-generation counter. -/
structure RowNetState where
  row : PositionRow
  lastCtrl : Option Nat
  aborted : List Nat
  pending : List Nat
  nextGen : Nat
  deriving Repr, DecidableEq

/-- A row with no resolution request ever issued. -/
def initRowNet (r : PositionRow) : RowNetState :=
  { row := r, lastCtrl := none, aborted := [], pending := [], nextGen := 0 }

/-- Synchronous prefix of `resolveRow(id, q)`: on an empty trimmed query,
reset candidates/loading/error and return without touching the abort
machinery; otherwise abort the previous controller, register a fresh one,
and mark the row loading. The boolean reports whether a fetch was
issued. -/
def resolveRowStart (s : RowNetState) (q : String) : RowNetState × Bool :=
  let query := jsTrim q
  if query == "" then
    let row1 := applyPatch s.row
      { candidates := some [], loading := some false, error := some none }
    ({ s with row := row1 }, false)
  else
    let aborted1 := s.lastCtrl.toList ++ s.aborted
    ({ row := applyPatch s.row { loading := some true, error := some none },
       lastCtrl := some s.nextGen,
       aborted := aborted1,
       pending := s.nextGen :: s.pending,
       nextGen := s.nextGen + 1 },
     true)

/-- Effect of a completed `/resolve` fetch on the row: on success with
`auto_selected` and a non-empty candidate list, resolve to the first
candidate and clear the list; on success otherwise, show the candidate
list; on a non-abort failure, record the error. -/
def applyResolveResult (r : PositionRow) : FetchResult → PositionRow
  | .success true (c :: _) =>
      applyPatch r
        { resolvedSymbol := some (some c.provider_symbol),
          candidates := some [], loading := some false }
  | .success _ cands =>
      applyPatch r { candidates := some cands, loading := some false }
  | .failure msg =>
      applyPatch r { loading := some false, error := some (some msg) }

/-- Completion of the fetch of generation `g`: the request is no longer
pending; if its controller was aborted the rejection is an `AbortError`
and is swallowed (row unchanged), otherwise the response is applied. -/
def resolveRowComplete (s : RowNetState) (g : Nat) (res : FetchResult) :
    RowNetState :=
  if g ∈ s.pending then
    if g ∈ s.aborted then
      { s with pending := s.pending.erase g }
    else
      { s with pending := s.pending.erase g,
               row := applyResolveResult s.row res }
  else s

/-- The `onChange` handler of the ticker input: set the query text and
reset resolution state. -/
def editQuery (s : RowNetState) (val : String) : RowNetState :=
  let row1 := applyPatch s.row
    { query := some val, resolvedSymbol := some none,
      candidates := some [], error := some none }
  { s with row := row1 }

/-- Events on one row's resolution machinery: a `resolveRow` call and the
arrival of the response of an issued fetch. -/
inductive NetEv
  | issue (q : String)
  | complete (g : Nat) (res : FetchResult)

/-- Apply one event. -/
def netStep (s : RowNetState) : NetEv → RowNetState
  | .issue q => (resolveRowStart s q).1
  | .complete g res => resolveRowComplete s g res

/-- Invariant of the per-row network state: pending generations are
distinct and below the counter, as are the aborted ones and the
registered controller, and every pending generation that is not aborted
is the currently registered controller. -/
def NetInv (s : RowNetState) : Prop :=
  s.pending.Nodup ∧
  (∀ g ∈ s.pending, g < s.nextGen) ∧
  (∀ g ∈ s.aborted, g < s.nextGen) ∧
  (∀ g, s.lastCtrl = some g → g < s.nextGen) ∧
  (∀ g ∈ s.pending, g ∉ s.aborted → s.lastCtrl = some g)

/-!
## Analysis submission (`runAnalysis`)
-/

/-- The positions submitted by `runAnalysis` / exposed as
`currentPositions`: rows with a truthy `resolvedSymbol` and a nonzero
amount. -/
def currentPositions (rows : List PositionRow) : List Position :=
  (rows.filter (fun r => truthyStr r.resolvedSymbol && r.amount != 0)).map
    (fun r => { ticker := r.resolvedSymbol.getD "", amount := r.amount })

/-- The `/analyze` response as consumed by `runAnalysis`: HTTP status,
the text body (`none` when reading it fails), and the `html_report`
field of the JSON body on success. -/
structure AnalyzeResp where
  status : Nat
  bodyText : Option String
  html_report : Option String
  deriving Repr, DecidableEq

/-- `Response.ok`: status in the 2xx range. -/
def respOk (r : AnalyzeResp) : Bool :=
  decide (200 ≤ r.status) && decide (r.status ≤ 299)

/-- Blocking message when the filtered position list is empty. -/
def noPositionsMsg : String :=
  "Please add at least one position with a resolved ticker and amount."

/-- Blocking message when a row has an amount but no selected ticker. -/
def missingTickerMsg : String :=
  "One or more positions has an amount but no selected ticker."

/-- Message surfaced on a 401 `/analyze` response. -/
def sessionExpiredMsg : String := "Session expired. Please refresh."

/-- Message surfaced on a 429 `/analyze` response. -/
def rateLimitMsg : String := "Rate limit exceeded. Please wait."

/-- Message surfaced on any other non-success `/analyze` response:
`Analysis failed: ${txt || HTTP <status>}` where `txt` is the body text
(empty when unreadable). -/
def analysisFailedMsg (resp : AnalyzeResp) : String :=
  "Analysis failed: " ++
    (if resp.bodyText.getD "" == "" then "HTTP " ++ toString resp.status
     else resp.bodyText.getD "")

/-- `runAnalysis`, as the function from the editor rows and the
`/analyze` response to `(runError, html, number of requests issued)`.
Validation happens before the request: an empty filtered position list
blocks with `noPositionsMsg`, then a row with a nonzero amount and no
truthy resolved symbol blocks with `missingTickerMsg`; otherwise exactly
one POST is made and its status dispatched (401, 429, other non-ok,
success). On every error path `html` stays the empty string set at
entry; nothing is retried. -/
def runAnalysis (rows : List PositionRow) (resp : AnalyzeResp) :
    Option String × String × Nat :=
  let positions := currentPositions rows
  if positions.length == 0 then
    (some noPositionsMsg, "", 0)
  else if rows.any (fun r => r.amount != 0 && !truthyStr r.resolvedSymbol) then
    (some missingTickerMsg, "", 0)
  else if resp.status == 401 then
    (some sessionExpiredMsg, "", 1)
  else if resp.status == 429 then
    (some rateLimitMsg, "", 1)
  else if !respOk resp then
    (some (analysisFailedMsg resp), "", 1)
  else
    (none, resp.html_report.getD "", 1)

/-!
## Concrete values for witnesses and counterexamples
-/

/-- A concrete alert, with the given id and read flag. -/
def sampleAlert (id : String) (read : Bool) : Alert :=
  { id := id, user_id := "u", portfolio_id := "p", portfolio_name := none,
    alert_type := .buy, severity := .info, signal_date := "2026-01-02",
    message := "signal", is_read := read, created_at := "2026-01-02" }

/-- A row with a resolved symbol and a nonzero amount. -/
def sampleGoodRow : PositionRow :=
  { id := 0, query := "AAPL", resolvedSymbol := some "AAPL", amount := 100,
    candidates := [], loading := false, error := none }

/-- A row with a nonzero amount and no resolved symbol. -/
def sampleBadRow : PositionRow :=
  { id := 1, query := "Apple", resolvedSymbol := none, amount := 100,
    candidates := [], loading := false, error := none }

/-- The two default rows with both tickers resolved (the candidate-select
patch applied to each row). -/
def resolvedDefaultRows : List PositionRow :=
  (updateRow
    (updateRow initEditor 0
      { resolvedSymbol := some (some "A"), query := some "A", candidates := some [] })
    1 { resolvedSymbol := some (some "B"), query := some "B", candidates := some [] }).rows

/-- Run a list of per-row resolution events from the fresh state. -/
def netRun (r : PositionRow) (evs : List NetEv) : RowNetState :=
  evs.foldl netStep (initRowNet r)

/-!
## Helper lemmas
-/

/-- A `reduce`-style left fold of additions equals the sum of the mapped
list. -/
theorem foldl_add_eq_sum (f : PositionRow → Int) (l : List PositionRow) :
    ∀ a : Int, l.foldl (fun s r => s + f r) a = a + (l.map f).sum := by
  induction l with
  | nil => intro a; simp
  | cons r t ih => intro a; simp [ih, add_assoc]

/-- A duplicate-free list whose elements are pairwise equal has at most
one element. -/
theorem length_le_one_of_nodup_of_all_eq {l : List Nat} (hnd : l.Nodup)
    (h : ∀ a ∈ l, ∀ b ∈ l, a = b) : l.length ≤ 1 := by
  match l with
  | [] => simp
  | [a] => simp
  | a :: b :: t =>
    exfalso
    rw [List.nodup_cons] at hnd
    exact hnd.1 (h a (by simp) b (by simp) ▸ List.mem_cons_self b t)

/-- The rows kept by a negated filter plus the matching count give back
the length of the list. -/
theorem length_filter_not_add_countP {α : Type} (p : α → Bool) (l : List α) :
    (l.filter (fun a => !(p a))).length + l.countP p = l.length := by
  induction l with
  | nil => rfl
  | cons a t ih =>
    cases h : p a <;>
      simp only [List.filter_cons, List.countP_cons, List.length_cons, h,
        Bool.not_true, Bool.not_false, if_true, if_false, cond_true,
        cond_false] <;>
      simp <;> omega

/-!
## Claim theorems: data hooks
-/

/-- C6: every data-hook mutator (savePortfolio, deletePortfolio,
saveAnalysis, deleteAnalysis, markAsRead, markAllAsRead, deleteAlert),
on a non-success response, throws an error carrying the server-provided
detail message or a generic fallback (the alert mutators always use
their fixed fallback) and leaves the hook's local state — items list,
total, unreadCount — completely unchanged. -/
theorem mutators_fail_atomically (resp : ApiResp) (hfail : resp.ok = false) :
    (∀ created s, savePortfolio resp created s =
      (s, some (resp.detail.getD "Failed to save portfolio"))) ∧
    (∀ id s, deletePortfolio resp id s =
      (s, some (resp.detail.getD "Failed to delete portfolio"))) ∧
    (∀ created s, saveAnalysis resp created s =
      (s, some (resp.detail.getD "Failed to save analysis"))) ∧
    (∀ id s, deleteAnalysis resp id s =
      (s, some (resp.detail.getD "Failed to delete analysis"))) ∧
    (∀ id s, markAsRead resp id s = (s, some "Failed to mark alert as read")) ∧
    (∀ s, markAllAsRead resp s = (s, some "Failed to mark all alerts as read")) ∧
    (∀ id s, deleteAlert resp id s = (s, some "Failed to delete alert")) := by
  refine ⟨?_, ?_, ?_, ?_, ?_, ?_, ?_⟩ <;> intros <;>
    simp [savePortfolio, deletePortfolio, saveAnalysis, deleteAnalysis,
      markAsRead, markAllAsRead, deleteAlert, hfail]

/-- Witness for C6: a concrete failed `markAsRead` leaves the alerts
state unchanged and throws its fallback message. -/
theorem mutators_fail_atomically_witness :
    markAsRead ⟨false, some "boom"⟩ "a" ⟨[sampleAlert "a" false], 1⟩ =
      (⟨[sampleAlert "a" false], 1⟩, some "Failed to mark alert as read") :=
  (mutators_fail_atomically ⟨false, some "boom"⟩ rfl).2.2.2.2.1 "a"
    ⟨[sampleAlert "a" false], 1⟩

/-- C8: a successful `deleteAnalysis(id)` removes the analysis with that
id from the local list (every remaining entry has a different id, and
exactly as many entries are removed as matched the id) and decrements
`total` by exactly 1, throwing nothing. -/
theorem deleteAnalysis_removes_and_decrements (resp : ApiResp) (id : String)
    (s : AnalysesState) (hok : resp.ok = true) :
    (deleteAnalysis resp id s).1.analyses =
      s.analyses.filter (fun a => a.id != id) ∧
    (∀ a ∈ (deleteAnalysis resp id s).1.analyses, a.id ≠ id) ∧
    (deleteAnalysis resp id s).1.analyses.length +
      s.analyses.countP (fun a => a.id == id) = s.analyses.length ∧
    (deleteAnalysis resp id s).1.total = s.total - 1 ∧
    (deleteAnalysis resp id s).2 = none := by
  refine ⟨?_, ?_, ?_, ?_, ?_⟩ <;> simp only [deleteAnalysis, hok, if_true]
  · intro a ha
    have := (List.mem_filter.mp ha).2
    simpa using this
  · simpa [deleteAnalysis, hok, bne] using
      length_filter_not_add_countP (fun a => a.id == id) s.analyses

/-- Witness for C8: deleting the only analysis empties the list and
takes `total` from 1 to 0. -/
theorem deleteAnalysis_removes_and_decrements_witness :
    (1 : Int) - 1 = 0 ∧
    ∀ a ∈ (deleteAnalysis ⟨true, none⟩ "x" ⟨[], 1⟩).1.analyses, a.id ≠ "x" :=
  ⟨by decide,
    (deleteAnalysis_removes_and_decrements ⟨true, none⟩ "x" ⟨[], 1⟩ rfl).2.1⟩

/-- C10: a successful `deleteAnalysis` decrements `total` even when the
given id is absent from the local list — the list stays unchanged, the
counter is not clamped at zero, so starting from `total = 0` it becomes
negative, and starting from `total = analyses.length` it drifts below
the list's length. -/
theorem deleteAnalysis_total_drift (resp : ApiResp) (id : String)
    (s : AnalysesState) (hok : resp.ok = true)
    (habs : ∀ a ∈ s.analyses, a.id ≠ id) :
    (deleteAnalysis resp id s).1.analyses = s.analyses ∧
    (deleteAnalysis resp id s).1.total = s.total - 1 ∧
    (s.total = 0 → (deleteAnalysis resp id s).1.total < 0) ∧
    (s.total = s.analyses.length →
      (deleteAnalysis resp id s).1.total <
        ((deleteAnalysis resp id s).1.analyses.length : Int)) := by
  have hfix : s.analyses.filter (fun a => a.id != id) = s.analyses := by
    apply List.filter_eq_self.mpr
    intro a ha
    simpa using habs a ha
  refine ⟨?_, ?_, ?_, ?_⟩ <;> simp only [deleteAnalysis, hok, if_true, hfix]
  · intro h; omega
  · intro h; omega

/-- Witness for C10: with an empty local list and `total = 0`, a
successful delete of an unknown id drives `total` to −1. -/
theorem deleteAnalysis_total_drift_witness :
    (deleteAnalysis ⟨true, none⟩ "ghost" ⟨[], 0⟩).1.analyses = [] ∧
    (deleteAnalysis ⟨true, none⟩ "ghost" ⟨[], 0⟩).1.total < 0 := by
  have h := deleteAnalysis_total_drift ⟨true, none⟩ "ghost" ⟨[], 0⟩ rfl
    (by simp)
  exact ⟨h.1, h.2.2.1 rfl⟩

/-- Counterexample for C2: a successful `markAsRead` on an alert that is
already read still decrements `unreadCount` (from 1 to 0 here), so the
decrement is not conditioned on the alert having been unread. -/
theorem markAsRead_decrement_counterexample :
    ((AlertsState.mk [sampleAlert "a" true] 1).alerts.all Alert.is_read) = true ∧
    (markAsRead ⟨true, none⟩ "a" ⟨[sampleAlert "a" true], 1⟩).1.unreadCount =
      (1 : Int) - 1 := by
  constructor
  · decide
  · simp [markAsRead, sampleAlert]

/-- Marking the alert with a given id read is idempotent on the alert
list. -/
theorem markRead_map_idem (id : String) (l : List Alert) :
    (l.map (fun a => if a.id == id then { a with is_read := true } else a)).map
      (fun a => if a.id == id then { a with is_read := true } else a) =
    l.map (fun a => if a.id == id then { a with is_read := true } else a) := by
  rw [List.map_map]
  apply List.map_congr_left
  intro a _
  by_cases h : a.id = id
  · subst h
    simp
  · simp [Function.comp, h]

/-- C2 (amended): a successful `markAsRead` marks the alert read and
sets `unreadCount` to `max 0 (unreadCount − 1)` unconditionally: it
decrements by exactly 1 whenever the counter is positive — regardless of
whether the alert was previously unread — never goes negative, and
re-marking is idempotent on the alert list. -/
theorem markAsRead_clamped_decrement (resp : ApiResp) (id : String)
    (s : AlertsState) (hok : resp.ok = true) :
    (markAsRead resp id s).1.unreadCount = max 0 (s.unreadCount - 1) ∧
    (0 < s.unreadCount →
      (markAsRead resp id s).1.unreadCount = s.unreadCount - 1) ∧
    0 ≤ (markAsRead resp id s).1.unreadCount ∧
    (markAsRead resp id s).1.alerts =
      s.alerts.map (fun a => if a.id == id then { a with is_read := true } else a) ∧
    (markAsRead resp id ((markAsRead resp id s).1)).1.alerts =
      (markAsRead resp id s).1.alerts := by
  refine ⟨?_, ?_, ?_, ?_, ?_⟩
  · simp [markAsRead, hok]
  · intro h
    simp only [markAsRead, hok, if_true]
    exact max_eq_right (by omega)
  · simp only [markAsRead, hok, if_true]
    exact le_max_left 0 _
  · simp [markAsRead, hok]
  · simp only [markAsRead, hok, if_true]
    exact markRead_map_idem id s.alerts

/-- Witness for C2 (amended): marking the single unread alert takes
`unreadCount` from 1 to 0 and sets its read flag. -/
theorem markAsRead_clamped_decrement_witness :
    (0 : Int) < 1 ∧
    (markAsRead ⟨true, none⟩ "a" ⟨[sampleAlert "a" false], 1⟩).1.unreadCount =
      (1 : Int) - 1 :=
  ⟨by decide,
    (markAsRead_clamped_decrement ⟨true, none⟩ "a" ⟨[sampleAlert "a" false], 1⟩
      rfl).2.1 (by decide)⟩

/-!
## Claim theorems: exposures and row clearing
-/

/-- C7: the exposure values are computed purely from the local rows as
gross = Σ|amount|, net = Σ amount, long = Σ of positive amounts,
short = Σ|negative amounts|; on the two default rows (both resolved, no
network involved) they are 2,000,000 / 0 / 1,000,000 / 1,000,000. -/
theorem exposures_from_local_rows :
    (∀ rows : List PositionRow,
      gross rows = (rows.map (fun r => |r.amount|)).sum ∧
      net rows = (rows.map (fun r => r.amount)).sum ∧
      longExposure rows =
        (rows.map (fun r => if r.amount > 0 then r.amount else 0)).sum ∧
      shortExposure rows =
        (rows.map (fun r => if r.amount < 0 then |r.amount| else 0)).sum) ∧
    gross resolvedDefaultRows = 2000000 ∧ net resolvedDefaultRows = 0 ∧
    longExposure resolvedDefaultRows = 1000000 ∧
    shortExposure resolvedDefaultRows = 1000000 := by
  refine ⟨fun rows => ⟨?_, ?_, ?_, ?_⟩, ?_, ?_, ?_, ?_⟩
  · simpa [gross] using foldl_add_eq_sum (fun r => |r.amount|) rows 0
  · simpa [net] using foldl_add_eq_sum (fun r => r.amount) rows 0
  · simpa [longExposure] using
      foldl_add_eq_sum (fun r => if r.amount > 0 then r.amount else 0) rows 0
  · simpa [shortExposure] using
      foldl_add_eq_sum (fun r => if r.amount < 0 then |r.amount| else 0) rows 0
  · decide
  · decide
  · decide
  · decide

/-- C3: for every prior per-row state, emptying the query text (the
`onChange` patch) followed by the blur/Enter-triggered `resolveRow` on
the now-empty query leaves the row unresolved with no candidates, no
error and not loading, and issues no request (the pending requests and
abort machinery are untouched). -/
theorem clearQuery_resets (s : RowNetState) :
    (resolveRowStart (editQuery s "") "").1.row =
      { s.row with query := "", resolvedSymbol := none, candidates := [],
                   loading := false, error := none } ∧
    (resolveRowStart (editQuery s "") "").2 = false ∧
    (resolveRowStart (editQuery s "") "").1.pending = s.pending ∧
    (resolveRowStart (editQuery s "") "").1.aborted = s.aborted ∧
    (resolveRowStart (editQuery s "") "").1.nextGen = s.nextGen := by
  refine ⟨?_, ?_, ?_, ?_, ?_⟩ <;> rfl

/-!
## Claim theorems: analysis submission
-/

/-- Counterexample for C4: a single row with a nonzero amount and no
resolved symbol makes the filtered position list empty, so `runAnalysis`
surfaces the "no positions" message — not the "missing ticker" message
the claim requires for that input — and the two messages differ. -/
theorem runAnalysis_missing_ticker_counterexample :
    runAnalysis [sampleBadRow] ⟨200, none, some "report"⟩ =
      (some noPositionsMsg, "", 0) ∧
    noPositionsMsg ≠ missingTickerMsg := by
  constructor
  · rfl
  · decide

/-- C4 (amended): `runAnalysis` posts to `/analyze` if and only if
validation passes. When no row has both a truthy resolved symbol and a
nonzero amount it sets the blocking "no positions" message and issues no
request — even if some row has an amount without a ticker, that branch
wins. When some position passes the filter but a row has a nonzero
amount without a resolved symbol, it sets the blocking "missing ticker"
message and issues no request. Otherwise it submits exactly once. -/
theorem runAnalysis_validation (rows : List PositionRow) (resp : AnalyzeResp) :
    ((∀ r ∈ rows, truthyStr r.resolvedSymbol = true → r.amount = 0) →
      runAnalysis rows resp = (some noPositionsMsg, "", 0)) ∧
    ((∃ r ∈ rows, truthyStr r.resolvedSymbol = true ∧ r.amount ≠ 0) →
      (∃ r ∈ rows, r.amount ≠ 0 ∧ truthyStr r.resolvedSymbol = false) →
      runAnalysis rows resp = (some missingTickerMsg, "", 0)) ∧
    ((∃ r ∈ rows, truthyStr r.resolvedSymbol = true ∧ r.amount ≠ 0) →
      (∀ r ∈ rows, r.amount ≠ 0 → truthyStr r.resolvedSymbol = true) →
      (runAnalysis rows resp).2.2 = 1) ∧
    ((runAnalysis rows resp).2.2 = 1 ↔
      ((∃ r ∈ rows, truthyStr r.resolvedSymbol = true ∧ r.amount ≠ 0) ∧
        ∀ r ∈ rows, r.amount ≠ 0 → truthyStr r.resolvedSymbol = true)) := by
  have hlen : ((currentPositions rows).length == 0) = true ↔
      ∀ r ∈ rows, truthyStr r.resolvedSymbol = true → r.amount = 0 := by
    simp [currentPositions]
  have hany : (rows.any fun r => r.amount != 0 && !truthyStr r.resolvedSymbol) = true ↔
      ∃ r ∈ rows, r.amount ≠ 0 ∧ truthyStr r.resolvedSymbol = false := by
    simp
  have part1 : (∀ r ∈ rows, truthyStr r.resolvedSymbol = true → r.amount = 0) →
      runAnalysis rows resp = (some noPositionsMsg, "", 0) := by
    intro h
    simp [runAnalysis, hlen.mpr h]
  have part2 : (∃ r ∈ rows, truthyStr r.resolvedSymbol = true ∧ r.amount ≠ 0) →
      (∃ r ∈ rows, r.amount ≠ 0 ∧ truthyStr r.resolvedSymbol = false) →
      runAnalysis rows resp = (some missingTickerMsg, "", 0) := by
    intro hg hb
    have h1 : ((currentPositions rows).length == 0) = false := by
      rw [Bool.eq_false_iff]
      intro hc
      obtain ⟨r, hr, ht, ha⟩ := hg
      exact ha (hlen.mp hc r hr ht)
    simp [runAnalysis, h1, hany.mpr hb]
  have part3 : (∃ r ∈ rows, truthyStr r.resolvedSymbol = true ∧ r.amount ≠ 0) →
      (∀ r ∈ rows, r.amount ≠ 0 → truthyStr r.resolvedSymbol = true) →
      (runAnalysis rows resp).2.2 = 1 := by
    intro hg hb
    have h1 : ((currentPositions rows).length == 0) = false := by
      rw [Bool.eq_false_iff]
      intro hc
      obtain ⟨r, hr, ht, ha⟩ := hg
      exact ha (hlen.mp hc r hr ht)
    have h2 : (rows.any fun r => r.amount != 0 && !truthyStr r.resolvedSymbol) = false := by
      rw [Bool.eq_false_iff]
      intro hc
      obtain ⟨r, hr, ha, ht⟩ := hany.mp hc
      rw [hb r hr ha] at ht
      cases ht
    simp only [runAnalysis, h1, h2, Bool.false_eq_true, if_false]
    split_ifs <;> rfl
  refine ⟨part1, part2, part3, ?_, ?_⟩
  · intro hc
    by_cases hg : ∃ r ∈ rows, truthyStr r.resolvedSymbol = true ∧ r.amount ≠ 0
    · by_cases hb : ∃ r ∈ rows, r.amount ≠ 0 ∧ truthyStr r.resolvedSymbol = false
      · rw [part2 hg hb] at hc
        cases hc
      · refine ⟨hg, fun r hr ha => ?_⟩
        cases htv : truthyStr r.resolvedSymbol with
        | true => rfl
        | false => exact absurd ⟨r, hr, ha, htv⟩ hb
    · have h : ∀ r ∈ rows, truthyStr r.resolvedSymbol = true → r.amount = 0 := by
        intro r hr ht
        by_contra ha
        exact hg ⟨r, hr, ht, ha⟩
      rw [part1 h] at hc
      cases hc
  · rintro ⟨hg, hb⟩
    exact part3 hg hb

/-- Witness for C4 (amended): the bad-row-only portfolio is blocked with
the "no positions" message and no request. -/
theorem runAnalysis_validation_witness :
    runAnalysis [sampleBadRow] ⟨200, none, some "report"⟩ =
      (some noPositionsMsg, "", 0) :=
  (runAnalysis_validation [sampleBadRow] ⟨200, none, some "report"⟩).1 (by decide)

/-- C5: once validation passes, the non-success status of the `/analyze`
POST determines the surfaced message — 401 the session-expiry message,
429 the rate-limit message, any other non-2xx the generic failure
carrying the body text, or the HTTP status code when the body is empty
or unreadable — while no report is stored (`html` stays empty) and
exactly one request is made (no retry). -/
theorem runAnalysis_error_mapping (rows : List PositionRow) (resp : AnalyzeResp)
    (hgood : ∃ r ∈ rows, truthyStr r.resolvedSymbol = true ∧ r.amount ≠ 0)
    (hnobad : ∀ r ∈ rows, r.amount ≠ 0 → truthyStr r.resolvedSymbol = true) :
    (resp.status = 401 → runAnalysis rows resp = (some sessionExpiredMsg, "", 1)) ∧
    (resp.status = 429 → runAnalysis rows resp = (some rateLimitMsg, "", 1)) ∧
    (resp.status ≠ 401 → resp.status ≠ 429 → respOk resp = false →
      runAnalysis rows resp = (some (analysisFailedMsg resp), "", 1)) ∧
    (resp.bodyText = none →
      analysisFailedMsg resp = "Analysis failed: HTTP " ++ toString resp.status) ∧
    (resp.bodyText = some "" →
      analysisFailedMsg resp = "Analysis failed: HTTP " ++ toString resp.status) ∧
    (∀ t, resp.bodyText = some t → t ≠ "" →
      analysisFailedMsg resp = "Analysis failed: " ++ t) := by
  have h1 : ((currentPositions rows).length == 0) = false := by
    rw [Bool.eq_false_iff]
    intro hc
    obtain ⟨r, hr, ht, ha⟩ := hgood
    have : ∀ r ∈ rows, truthyStr r.resolvedSymbol = true → r.amount = 0 := by
      simpa [currentPositions] using hc
    exact ha (this r hr ht)
  have h2 : (rows.any fun r => r.amount != 0 && !truthyStr r.resolvedSymbol) = false := by
    rw [Bool.eq_false_iff]
    intro hc
    have : ∃ r ∈ rows, r.amount ≠ 0 ∧ truthyStr r.resolvedSymbol = false := by
      simpa using hc
    obtain ⟨r, hr, ha, ht⟩ := this
    rw [hnobad r hr ha] at ht
    cases ht
  refine ⟨?_, ?_, ?_, ?_, ?_, ?_⟩
  · intro hs
    simp [runAnalysis, h1, h2, hs]
  · intro hs
    simp [runAnalysis, h1, h2, hs, respOk]
  · intro hs1 hs2 hok
    simp [runAnalysis, h1, h2, hs1, hs2, hok]
  · intro hb
    have h : analysisFailedMsg resp =
        "Analysis failed: " ++ ("HTTP " ++ toString resp.status) := by
      simp [analysisFailedMsg, hb]
    rw [h, ← String.append_assoc]
    rfl
  · intro hb
    have h : analysisFailedMsg resp =
        "Analysis failed: " ++ ("HTTP " ++ toString resp.status) := by
      simp [analysisFailedMsg, hb]
    rw [h, ← String.append_assoc]
    rfl
  · intro t hb ht
    simp [analysisFailedMsg, hb, ht]

/-- Witness for C5: a 401 on the single-good-row portfolio surfaces the
session-expiry message with no report stored. -/
theorem runAnalysis_error_mapping_witness :
    runAnalysis [sampleGoodRow] ⟨401, none, none⟩ =
      (some sessionExpiredMsg, "", 1) :=
  (runAnalysis_error_mapping [sampleGoodRow] ⟨401, none, none⟩ (by decide)
    (by decide)).1 rfl

/-!
## Claim theorems: row management
-/

/-- `applyPatch` never changes the row id (no call site patches `id`). -/
theorem applyPatch_id (r : PositionRow) (p : RowPatch) :
    (applyPatch r p).id = r.id := rfl

/-- With distinct row ids, at most one row matches a given id. -/
theorem countP_id_le_one (rows : List PositionRow) (id : Nat)
    (hnd : (rows.map PositionRow.id).Nodup) :
    rows.countP (fun r => r.id == id) ≤ 1 := by
  have hc1 := List.nodup_iff_count_le_one.mp hnd id
  rw [List.count_eq_countP, List.countP_map] at hc1
  exact hc1

/-- `updateRow` leaves the list of row ids unchanged. -/
theorem updateRow_map_id (s : EditorState) (id : Nat) (p : RowPatch) :
    (updateRow s id p).rows.map PositionRow.id = s.rows.map PositionRow.id := by
  simp only [updateRow]
  rw [List.map_map]
  apply List.map_congr_left
  intro r _
  by_cases h : r.id == id <;> simp [Function.comp, h, applyPatch_id]

/-- Every editor action preserves the editor invariant. -/
theorem editorStep_inv (s : EditorState) (h : EditorInv s) (ev : EditorStep) :
    EditorInv (editorStep s ev) := by
  obtain ⟨hlen, hnd, hlt⟩ := h
  cases ev with
  | add =>
    refine ⟨?_, ?_, ?_⟩
    · simp only [editorStep, addRow, List.length_append, List.length_cons,
        List.length_nil]
      omega
    · simp only [editorStep, addRow]
      rw [List.map_append]
      refine List.Nodup.append hnd (by simp) ?_
      intro a ha hb
      simp only [List.map_cons, List.map_nil, List.mem_singleton, freshRow] at hb
      obtain ⟨r, hr, hra⟩ := List.mem_map.mp ha
      rw [hb] at hra
      have := hlt r hr
      omega
    · intro r hr
      simp only [editorStep, addRow, List.mem_append, List.mem_singleton] at hr
      cases hr with
      | inl hmem => exact Nat.lt_succ_of_lt (hlt r hmem)
      | inr heq =>
        subst heq
        show s.nextId < s.nextId + 1
        omega
  | remove id =>
    by_cases hle : s.rows.length ≤ 2
    · simpa [editorStep, removeRow, hle] using ⟨hlen, hnd, hlt⟩
    · have hrem : editorStep s (.remove id) =
          { s with rows := s.rows.filter (fun r => r.id != id) } := by
        simp [editorStep, removeRow, hle]
      rw [hrem]
      refine ⟨?_, ?_, ?_⟩
      · have hcnt := countP_id_le_one s.rows id hnd
        have hfl := length_filter_not_add_countP
          (fun r : PositionRow => r.id == id) s.rows
        have hbeq : (fun r : PositionRow => r.id != id) =
            (fun r : PositionRow => !(r.id == id)) := rfl
        simp only [hbeq]
        omega
      · have hsub : (s.rows.filter (fun r => r.id != id)).Sublist s.rows :=
          List.filter_sublist _
        exact hnd.sublist (hsub.map PositionRow.id)
      · intro r hr
        exact hlt r (List.mem_of_mem_filter hr)
  | update id p =>
    refine ⟨?_, ?_, ?_⟩
    · simpa [editorStep, updateRow] using hlen
    · simpa [editorStep] using (updateRow_map_id s id p) ▸ hnd
    · intro r hr
      simp only [editorStep, updateRow, List.mem_map] at hr
      obtain ⟨r0, hr0, hre⟩ := hr
      subst hre
      have hgoal : (if r0.id == id then applyPatch r0 p else r0).id = r0.id := by
        by_cases h0 : r0.id == id <;> simp [h0, applyPatch_id]
      show (if r0.id == id then applyPatch r0 p else r0).id < s.nextId
      rw [hgoal]
      exact hlt r0 hr0

/-- The editor invariant holds in every state reachable by editor
actions from an invariant state. -/
theorem editorRun_inv (s : EditorState) (h : EditorInv s)
    (steps : List EditorStep) : EditorInv (editorRun s steps) := by
  induction steps generalizing s with
  | nil => exact h
  | cons e t ih => exact ih _ (editorStep_inv s h e)

/-- The initial two-row editor state satisfies the invariant. -/
theorem editorInv_init : EditorInv initEditor := by
  refine ⟨by decide, by decide, ?_⟩
  intro r hr
  simp only [initEditor, List.mem_cons, List.not_mem_nil, or_false] at hr
  cases hr with
  | inl h => subst h; decide
  | inr h => subst h; decide

/-- C9: `removeRow` is a no-op whenever the editor holds two or fewer
rows, and otherwise removes exactly the row with the given id (in an
invariant state at most one row matches, so at most one row is removed
and none of the survivors carries the id); consequently every state
reachable from the initial two-row state by addRow/removeRow/updateRow
satisfies the invariant and in particular holds at least two rows. -/
theorem editor_min_two_rows :
    (∀ s id, s.rows.length ≤ 2 → removeRow s id = s) ∧
    (∀ s id, 2 < s.rows.length →
      (removeRow s id).rows = s.rows.filter (fun r => r.id != id)) ∧
    (∀ s id, EditorInv s → 2 < s.rows.length →
      s.rows.length - 1 ≤ (removeRow s id).rows.length ∧
      ∀ r ∈ (removeRow s id).rows, r.id ≠ id) ∧
    (∀ steps, EditorInv (editorRun initEditor steps)) ∧
    (∀ steps, 2 ≤ (editorRun initEditor steps).rows.length) := by
  have h1 : ∀ (s : EditorState) id, s.rows.length ≤ 2 → removeRow s id = s := by
    intro s id hle
    simp [removeRow, hle]
  have h2 : ∀ (s : EditorState) id, 2 < s.rows.length →
      (removeRow s id).rows = s.rows.filter (fun r => r.id != id) := by
    intro s id hgt
    simp [removeRow, Nat.not_le.mpr hgt]
  refine ⟨h1, h2, ?_, fun steps => editorRun_inv initEditor editorInv_init steps,
    fun steps => (editorRun_inv initEditor editorInv_init steps).1⟩
  intro s id hinv hgt
  obtain ⟨hlen, hnd, hlt⟩ := hinv
  constructor
  · rw [h2 s id hgt]
    have hcnt := countP_id_le_one s.rows id hnd
    have hfl := length_filter_not_add_countP
      (fun r : PositionRow => r.id == id) s.rows
    have hbeq : (fun r : PositionRow => r.id != id) =
        (fun r : PositionRow => !(r.id == id)) := rfl
    simp only [hbeq]
    omega
  · intro r hr
    rw [h2 s id hgt] at hr
    have := (List.mem_filter.mp hr).2
    simpa using this

/-- Witness for C9: removing from the two-row initial state is a no-op,
and a reachable three-row state loses exactly one row on removal. -/
theorem editor_min_two_rows_witness :
    removeRow initEditor 0 = initEditor ∧
    2 ≤ (editorRun initEditor
      [EditorStep.add, EditorStep.remove 0]).rows.length := by
  constructor
  · exact editor_min_two_rows.1 initEditor 0 (by decide)
  · exact editor_min_two_rows.2.2.2.2 [EditorStep.add, EditorStep.remove 0]

/-!
## Claim theorems: resolution cancellation
-/

/-- The fresh per-row network state satisfies the invariant. -/
theorem netInv_init (r : PositionRow) : NetInv (initRowNet r) := by
  refine ⟨List.nodup_nil, ?_, ?_, ?_, ?_⟩ <;> simp [initRowNet]

/-- Unfolding of `resolveRowStart` on a non-empty trimmed query. -/
theorem resolveRowStart_ne (s : RowNetState) (q : String) (h : jsTrim q ≠ "") :
    resolveRowStart s q =
      ({ row := applyPatch s.row { loading := some true, error := some none },
         lastCtrl := some s.nextGen,
         aborted := s.lastCtrl.toList ++ s.aborted,
         pending := s.nextGen :: s.pending,
         nextGen := s.nextGen + 1 }, true) := by
  simp [resolveRowStart, h]

/-- Unfolding of `resolveRowStart` on an empty trimmed query. -/
theorem resolveRowStart_empty (s : RowNetState) (q : String) (h : jsTrim q = "") :
    resolveRowStart s q =
      ({ s with row := applyPatch s.row { candidates := some [], loading := some false, error := some none } },
       false) := by
  simp [resolveRowStart, h]

/-- Introduction rule for `NetInv` with the state fields spelled out. -/
theorem netInv_mk (row1 : PositionRow) (ctrl : Option Nat)
    (ab pend : List Nat) (n : Nat)
    (hnd : pend.Nodup) (hpb : ∀ g ∈ pend, g < n) (hab : ∀ g ∈ ab, g < n)
    (hlb : ∀ g, ctrl = some g → g < n)
    (hlast : ∀ g ∈ pend, g ∉ ab → ctrl = some g) :
    NetInv { row := row1, lastCtrl := ctrl, aborted := ab,
             pending := pend, nextGen := n } :=
  ⟨hnd, hpb, hab, hlb, hlast⟩

/-- Every per-row resolution event preserves the invariant. -/
theorem netStep_inv (s : RowNetState) (h : NetInv s) (ev : NetEv) :
    NetInv (netStep s ev) := by
  obtain ⟨hnd, hpb, hab, hlb, hlast⟩ := h
  cases ev with
  | issue q =>
    by_cases hq : jsTrim q = ""
    · have he : netStep s (.issue q) = { s with row := applyPatch s.row { candidates := some [], loading := some false, error := some none } } := by
        rw [netStep, resolveRowStart_empty s q hq]
      rw [he]
      exact ⟨hnd, hpb, hab, hlb, hlast⟩
    · have he : netStep s (.issue q) =
          { row := applyPatch s.row { loading := some true, error := some none },
            lastCtrl := some s.nextGen,
            aborted := s.lastCtrl.toList ++ s.aborted,
            pending := s.nextGen :: s.pending,
            nextGen := s.nextGen + 1 } := by
        rw [netStep, resolveRowStart_ne s q hq]
      rw [he]
      apply netInv_mk
      · refine List.nodup_cons.mpr ⟨?_, hnd⟩
        intro hmem
        exact absurd (hpb _ hmem) (lt_irrefl _)
      · intro g hg
        rcases List.mem_cons.mp hg with hcase | hcase
        · omega
        · have := hpb g hcase
          omega
      · intro g hg
        rcases List.mem_append.mp hg with hcase | hcase
        · cases hc : s.lastCtrl with
          | none => rw [hc] at hcase; cases hcase
          | some g0 =>
            rw [hc] at hcase
            rcases List.mem_singleton.mp hcase with rfl
            have := hlb g hc
            omega
        · have := hab g hcase
          omega
      · intro g hg
        injection hg with hg2
        omega
      · intro g hg hgn
        rcases List.mem_cons.mp hg with hcase | hcase
        · rw [hcase]
        · exfalso
          have hnotab : g ∉ s.aborted := by
            intro hmem
            exact hgn (List.mem_append.mpr (Or.inr hmem))
          have hl := hlast g hcase hnotab
          apply hgn
          apply List.mem_append.mpr
          left
          rw [hl]
          exact List.mem_singleton_self g
  | complete g res =>
    have he : netStep s (.complete g res) = resolveRowComplete s g res := rfl
    rw [he]
    unfold resolveRowComplete
    by_cases hp : g ∈ s.pending
    · rw [if_pos hp]
      by_cases ha : g ∈ s.aborted
      · rw [if_pos ha]
        exact ⟨hnd.erase g, fun g2 hg2 => hpb g2 (List.mem_of_mem_erase hg2),
          hab, hlb, fun g2 hg2 hn => hlast g2 (List.mem_of_mem_erase hg2) hn⟩
      · rw [if_neg ha]
        exact ⟨hnd.erase g, fun g2 hg2 => hpb g2 (List.mem_of_mem_erase hg2),
          hab, hlb, fun g2 hg2 hn => hlast g2 (List.mem_of_mem_erase hg2) hn⟩
    · rw [if_neg hp]
      exact ⟨hnd, hpb, hab, hlb, hlast⟩

/-- In an invariant state, at most one pending request is not aborted. -/
theorem netInv_outstanding (s : RowNetState) (h : NetInv s) :
    (s.pending.filter (fun g => g ∉ s.aborted)).length ≤ 1 := by
  obtain ⟨hnd, hpb, hab, hlb, hlast⟩ := h
  apply length_le_one_of_nodup_of_all_eq (List.Nodup.filter _ hnd)
  intro a ha b hb
  have haP := List.mem_filter.mp ha
  have hbP := List.mem_filter.mp hb
  have ha2 : a ∉ s.aborted := by simpa using haP.2
  have hb2 : b ∉ s.aborted := by simpa using hbP.2
  have he1 := hlast a haP.1 ha2
  have he2 := hlast b hbP.1 hb2
  exact Option.some.inj (he1.symm.trans he2)

/-- The invariant holds along every event sequence from the fresh
state. -/
theorem netRun_inv (r : PositionRow) (evs : List NetEv) :
    NetInv (netRun r evs) := by
  suffices hsuf : ∀ (t : List NetEv) (s : RowNetState),
      NetInv s → NetInv (t.foldl netStep s) from
    hsuf evs (initRowNet r) (netInv_init r)
  intro t
  induction t with
  | nil => intro s hs; exact hs
  | cons e u ih => intro s hs; exact ih _ (netStep_inv s hs e)

/-- C1: issuing a new resolution for a row while one is in flight aborts
the in-flight request before issuing the new one. After two back-to-back
`resolveRow` starts, the first generation is in the aborted set; its
completion, if it arrives, is discarded (only the pending bookkeeping
changes, the row is untouched); the second generation's completion
applies its outcome to the row; the invariant is preserved; and in every
state reachable by any event sequence at most one non-aborted request is
outstanding. -/
theorem resolveRow_cancellation (s s1 s2 : RowNetState) (q1 q2 : String)
    (r1 r2 : FetchResult)
    (hinv : NetInv s) (h1 : jsTrim q1 ≠ "") (h2 : jsTrim q2 ≠ "")
    (hs1 : s1 = (resolveRowStart s q1).1)
    (hs2 : s2 = (resolveRowStart s1 q2).1) :
    s.nextGen ∈ s2.aborted ∧
    resolveRowComplete s2 s.nextGen r1 =
      { s2 with pending := s2.pending.erase s.nextGen } ∧
    (resolveRowComplete s2 s1.nextGen r2).row = applyResolveResult s2.row r2 ∧
    NetInv s2 ∧
    (∀ r evs, ((netRun r evs).pending.filter
      (fun g => g ∉ (netRun r evs).aborted)).length ≤ 1) := by
  have e1 : s1 =
      { row := applyPatch s.row { loading := some true, error := some none },
        lastCtrl := some s.nextGen,
        aborted := s.lastCtrl.toList ++ s.aborted,
        pending := s.nextGen :: s.pending,
        nextGen := s.nextGen + 1 } := by
    rw [hs1, resolveRowStart_ne s q1 h1]
  have e2 : s2 =
      { row := applyPatch s1.row { loading := some true, error := some none },
        lastCtrl := some s1.nextGen,
        aborted := s1.lastCtrl.toList ++ s1.aborted,
        pending := s1.nextGen :: s1.pending,
        nextGen := s1.nextGen + 1 } := by
    rw [hs2, resolveRowStart_ne s1 q2 h2]
  have hinv1 : NetInv s1 := by
    rw [hs1]
    exact netStep_inv s hinv (.issue q1)
  have hinv2 : NetInv s2 := by
    rw [hs2]
    exact netStep_inv s1 hinv1 (.issue q2)
  have hg1ab : s.nextGen ∈ s2.aborted := by
    rw [e2, e1]
    simp
  have hg1pend : s.nextGen ∈ s2.pending := by
    rw [e2, e1]
    simp
  have hg2pend : s1.nextGen ∈ s2.pending := by
    rw [e2]
    simp
  have hn1 : s1.nextGen = s.nextGen + 1 := by rw [e1]
  have hctrl1 : s1.lastCtrl = some s.nextGen := by rw [e1]
  have hg2nab : s1.nextGen ∉ s2.aborted := by
    obtain ⟨-, -, hab1, -, -⟩ := hinv1
    intro hmem
    have hmem2 : s1.nextGen ∈ s1.lastCtrl.toList ++ s1.aborted := by
      rw [e2] at hmem
      exact hmem
    rcases List.mem_append.mp hmem2 with hcase | hcase
    · have heq : s1.nextGen = s.nextGen := by
        rw [hctrl1] at hcase
        exact List.mem_singleton.mp hcase
      omega
    · have := hab1 _ hcase
      omega
  refine ⟨hg1ab, ?_, ?_, hinv2, ?_⟩
  · rw [resolveRowComplete, if_pos hg1pend, if_pos hg1ab]
  · rw [resolveRowComplete, if_pos hg2pend, if_neg hg2nab]
  · intro r evs
    exact netInv_outstanding (netRun r evs) (netRun_inv r evs)

/-- Witness for C1: from the fresh row state, issuing a resolution for
"AAPL" and then one for "MSFT" puts the first request's generation in
the aborted set. -/
theorem resolveRow_cancellation_witness :
    jsTrim "AAPL" ≠ "" ∧
    0 ∈ ((resolveRowStart
      ((resolveRowStart (initRowNet (freshRow 0 0)) "AAPL").1) "MSFT").1).aborted := by
  refine ⟨by decide, ?_⟩
  exact (resolveRow_cancellation (initRowNet (freshRow 0 0))
    ((resolveRowStart (initRowNet (freshRow 0 0)) "AAPL").1)
    ((resolveRowStart
      ((resolveRowStart (initRowNet (freshRow 0 0)) "AAPL").1) "MSFT").1)
    "AAPL" "MSFT" (.failure "x") (.failure "y")
    (netInv_init (freshRow 0 0)) (by decide) (by decide) rfl rfl).1

end SignalsFrontend
